import Mathlib

/-!
Verification of the SerWB link core (liteiclink/serwb): a shallow embedding
of the combinational/structural content of `core.py` (SERWBCore) and
`kusphy.py` (KUSSerdes), with theorems checking the natural-language
specification against it.

Conventions of the embedding:
- Migen combinational signals that are not assigned in a branch take their
  default value 0 (or false); the embedding makes those defaults explicit.
- A Signal(n) is modelled as a Nat together with truncation mod 2^n at the
  points where the hardware truncates.
- The 8b/10b Encoder/Decoder cores (litex, external to this repository) are
  abstracted as functions; theorems that need their behaviour take it as a
  hypothesis.
-/

namespace SerWB

/-- One 8b/10b lane symbol before encoding / after decoding: an 8-bit data
value together with the control (k) flag. Mirrors the per-lane `d`/`k`
signals of the litex Encoder/Decoder used by KUSSerdes. -/
structure Lane where
  k : Bool
  d : Nat
  deriving DecidableEq, Repr

/-- kusphy.py lines 103-117: the comb mux driving the encoder inputs.
When `tx_comma` is set only lane 0 is assigned (k=1, d=0xbc); lanes 1..3
keep the migen comb default 0. Otherwise each lane i is driven from bit i
of `tx_k` and byte i of `tx_d`. -/
def encoderLanes (tx_comma : Bool) (tx_k tx_d : Nat) : Fin 4 → Lane :=
  fun i =>
    if tx_comma then
      if i = 0 then ⟨true, 0xbc⟩ else ⟨false, 0⟩
    else
      ⟨Nat.testBit tx_k i.val, tx_d / 2 ^ (8 * i.val) % 2 ^ 8⟩

/-- kusphy.py lines 118-123: the value loaded into the 40-bit tx gearbox.
When `tx_idle` is set the group is forced to 0, otherwise it is
Cat(encoder.output[0..3]), each output being a 10-bit signal
(bits [10*i, 10*i+10) of the group hold lane i). -/
def txGearboxInput (tx_idle : Bool) (encOut : Fin 4 → Nat) : Nat :=
  if tx_idle then 0
  else
    encOut 0 % 2 ^ 10
    + encOut 1 % 2 ^ 10 * 2 ^ 10
    + encOut 2 % 2 ^ 10 * 2 ^ 20
    + encOut 3 % 2 ^ 10 * 2 ^ 30

/-- kusphy.py lines 214-217: the 10-bit slice of the 40-bit post-bitslip
group fed to decoder i (`rx_bitslip.o[10*i : 10*i+10]`). -/
def rxLaneInput (group : Nat) (i : Fin 4) : Nat :=
  group / 2 ^ (10 * i.val) % 2 ^ 10

/-- kusphy.py line 219: `rx_d = Cat(decoders[i].d)`; each decoder d output
is an 8-bit signal, byte i of rx_d is lane i. -/
def rxDWord (dec : Fin 4 → Lane) : Nat :=
  (dec 0).d % 2 ^ 8
  + (dec 1).d % 2 ^ 8 * 2 ^ 8
  + (dec 2).d % 2 ^ 8 * 2 ^ 16
  + (dec 3).d % 2 ^ 8 * 2 ^ 24

/-- kusphy.py line 218: `rx_k = Cat(decoders[i].k)`; bit i of rx_k is the
k flag of lane i. -/
def rxKWord (dec : Fin 4 → Lane) : Nat :=
  (if (dec 0).k then 1 else 0)
  + (if (dec 1).k then 1 else 0) * 2
  + (if (dec 2).k then 1 else 0) * 4
  + (if (dec 3).k then 1 else 0) * 8

/-- kusphy.py lines 221-224: rx_comma is asserted when lane 0 decodes to the
control symbol 0xbc and lanes 1..3 decode to data symbol 0x00. -/
def rxComma (dec : Fin 4 → Lane) : Bool :=
  ((dec 0).d == 0xbc && (dec 0).k)
  && ((dec 1).d == 0x00 && !(dec 1).k)
  && ((dec 2).d == 0x00 && !(dec 2).k)
  && ((dec 3).d == 0x00 && !(dec 3).k)

/-- kusphy.py line 220: rx_idle is asserted when the 40-bit post-bitslip
group is all zeros (`rx_bitslip.o == 0`). -/
def rxIdle (group : Nat) : Bool :=
  group == 0

/-- The rotation case indices of the migen BitSlip(dw) output Case
statement, built by `for i in range(dw): cases[i] = o.eq(r[i:dw+i])`. -/
def bitslipCases (dw : Nat) : List Nat :=
  List.range dw

/-- Next value of the migen BitSlip(dw) output register, given the selected
value, the shift register contents r and the previous output prev: the
output is driven by a Case in self.sync whose case i (for i in range(dw))
selects r[i : dw+i]; the Case has no default, so for a value outside the
case list the register keeps its previous value (no rotation is applied). -/
def bitslipOut (dw : Nat) (value : Nat) (r : Nat) (prev : Nat) : Nat :=
  if value ∈ bitslipCases dw then r / 2 ^ value % 2 ^ dw else prev

/-- kusphy.py line 24: `rx_bitslip_value = Signal(6)`, the width in bits of
the bitslip control input of the serdes. -/
def rxBitslipValueWidth : Nat := 6

/-- kusphy.py lines 167-168: the rx bitslip is instantiated as BitSlip(40)
(one 40-bit line group). -/
def rxBitslipWidth : Nat := 40

/-- The serdes role parameter of KUSSerdes (kusphy.py line 10). -/
inductive Mode
  | master
  | slave
  deriving DecidableEq, Repr

/-- The per-mode shape of KUSSerdes: which clocking resources exist, plus
the data-processing functions of the tx/rx datapaths. -/
structure SerdesModel where
  drivesClkPads : Bool
  hasRefclkInput : Bool
  encLanes : Bool → Nat → Nat → Fin 4 → Lane
  txGroup : Bool → (Fin 4 → Nat) → Nat
  rxLane : Nat → Fin 4 → Nat
  rxDOf : (Fin 4 → Lane) → Nat
  rxKOf : (Fin 4 → Lane) → Nat
  rxCommaOf : (Fin 4 → Lane) → Bool
  rxIdleOf : Nat → Bool
  rxBitslipOut : Nat → Nat → Nat → Nat

/-- KUSSerdes as a function of its mode parameter: only the clocking blocks
depend on mode (kusphy.py lines 76-98 exist only for master, 145-163 only
for slave); the tx and rx datapaths (lines 100-141 and 165-226) are built
unconditionally. -/
def kusSerdes (mode : Mode) : SerdesModel where
  drivesClkPads := mode == Mode.master
  hasRefclkInput := mode == Mode.slave
  encLanes := encoderLanes
  txGroup := txGearboxInput
  rxLane := rxLaneInput
  rxDOf := rxDWord
  rxKOf := rxKWord
  rxCommaOf := rxComma
  rxIdleOf := rxIdle
  rxBitslipOut := bitslipOut rxBitslipWidth

/-- The stream endpoints wired together by SERWBCore (core.py). -/
inductive Stage
  | etherbone
  | packetizer
  | depacketizer
  | txCdc
  | rxCdc
  | scrambler
  | descrambler
  | serdes
  deriving DecidableEq, Repr

/-- The directed stream connections made in the comb block of
SERWBCore.__init__ (core.py lines 33-55), in source order: an edge (a, b)
means the source endpoint of a drives the sink endpoint of b (for the
serdes, its raw tx/rx word interface). -/
def serwbConnections : List (Stage × Stage) :=
  [ (Stage.packetizer, Stage.txCdc),
    (Stage.txCdc, Stage.scrambler),
    (Stage.scrambler, Stage.serdes),
    (Stage.serdes, Stage.descrambler),
    (Stage.descrambler, Stage.rxCdc),
    (Stage.rxCdc, Stage.depacketizer),
    (Stage.depacketizer, Stage.etherbone),
    (Stage.etherbone, Stage.packetizer) ]

/-- The edges of a pipeline given as the list of its stages in order. -/
def chainEdges : List Stage → List (Stage × Stage)
  | [] => []
  | [_] => []
  | a :: b :: rest => (a, b) :: chainEdges (b :: rest)

/-- The transmit pipeline as the specification states it. -/
def specTxChain : List Stage :=
  [Stage.etherbone, Stage.packetizer, Stage.txCdc, Stage.scrambler, Stage.serdes]

/-- The receive pipeline as the specification states it. -/
def specRxChain : List Stage :=
  [Stage.serdes, Stage.descrambler, Stage.rxCdc, Stage.depacketizer, Stage.etherbone]

/-- The clock domain a stage of SERWBCore runs in; the CDC FIFOs straddle
both domains. From core.py: the scrambler and descrambler are wrapped in
ClockDomainsRenamer(phy.cd) (lines 28-29), the etherbone, packetizer and
depacketizer run in sys, the serdes word interface is in the phy domain. -/
inductive StageDomain
  | sys
  | phyCd
  | bridge
  deriving DecidableEq, Repr

/-- Domain assignment of each SERWBCore stage, from core.py. -/
def stageDomain : Stage → StageDomain
  | Stage.etherbone => StageDomain.sys
  | Stage.packetizer => StageDomain.sys
  | Stage.depacketizer => StageDomain.sys
  | Stage.txCdc => StageDomain.bridge
  | Stage.rxCdc => StageDomain.bridge
  | Stage.scrambler => StageDomain.phyCd
  | Stage.descrambler => StageDomain.phyCd
  | Stage.serdes => StageDomain.phyCd

/-- core.py lines 21-24: both CDC FIFOs carry one 32-bit data field. -/
def cdcWidth : Nat := 32

/-- core.py lines 21-24: both CDC FIFOs have depth 16. -/
def cdcDepth : Nat := 16

/-- core.py line 22: tx_cdc is written in sys and read in phy.cd. -/
def txCdcDomains : StageDomain × StageDomain :=
  (StageDomain.sys, StageDomain.phyCd)

/-- core.py line 24: rx_cdc is written in phy.cd and read in sys. -/
def rxCdcDomains : StageDomain × StageDomain :=
  (StageDomain.phyCd, StageDomain.sys)

/-- Inputs of the SERWBCore comb block (core.py lines 33-55) that feed the
phy-facing connections. -/
structure CoreCombIn where
  init_ready : Bool
  scrambler_source_valid : Bool
  scrambler_source_k : Nat
  scrambler_source_d : Nat
  serdes_rx_k : Nat
  serdes_rx_d : Nat
  deriving DecidableEq, Repr

/-- Outputs of the SERWBCore comb block that feed the phy-facing
connections. -/
structure CoreCombOut where
  scrambler_source_ready : Bool
  serdes_tx_k : Nat
  serdes_tx_d : Nat
  descrambler_sink_valid : Bool
  descrambler_sink_k : Nat
  descrambler_sink_d : Nat
  deriving DecidableEq, Repr

/-- core.py lines 37-48: the comb logic between scrambler/descrambler and
the phy. tx_k/tx_d are assigned only inside If(phy.init.ready,
If(scrambler.source.valid, ...)) and otherwise keep the migen comb default
0; scrambler.source.ready is asserted only under If(phy.init.ready);
descrambler.sink.valid is phy.init.ready; descrambler sink k/d always
mirror the serdes rx outputs. -/
def coreComb (x : CoreCombIn) : CoreCombOut where
  scrambler_source_ready := x.init_ready
  serdes_tx_k :=
    if x.init_ready && x.scrambler_source_valid then x.scrambler_source_k else 0
  serdes_tx_d :=
    if x.init_ready && x.scrambler_source_valid then x.scrambler_source_d else 0
  descrambler_sink_valid := x.init_ready
  descrambler_sink_k := x.serdes_rx_k
  descrambler_sink_d := x.serdes_rx_d

/-- Modelled from the spec: the stream.AsyncFIFO implementation used for
the ClockDomainBridge is external library code not under src; section 5 of
the spec describes it as a bounded FIFO queue with ready/valid
backpressure (enqueue only when not full, dequeue only when data is
present). The buffer holds the queued words, oldest first. -/
structure Fifo where
  capacity : Nat
  buf : List Nat
  deriving DecidableEq, Repr

/-- The FIFO is full when the buffer holds capacity words. -/
def Fifo.full (f : Fifo) : Bool :=
  f.buf.length == f.capacity

/-- Sink ready (enqueue allowed) exactly when not full. -/
def Fifo.sinkReady (f : Fifo) : Bool :=
  !f.full

/-- Source valid (dequeue possible) exactly when a word is present. -/
def Fifo.sourceValid (f : Fifo) : Bool :=
  !f.buf.isEmpty

/-- One handshake on the FIFO as seen from the bridge: the producer offers
a word, or the consumer asserts ready. -/
inductive FifoOp
  | offer (w : Nat)
  | take
  deriving DecidableEq, Repr

/-- Run a sequence of handshakes against the FIFO. Returns the final FIFO,
the list of words actually accepted from the producer (an offer against a
full FIFO is refused: the producer stalls), and the list of words handed
to the consumer (a take on an empty FIFO yields nothing: the consumer
stalls). -/
def Fifo.run (f : Fifo) : List FifoOp → Fifo × List Nat × List Nat
  | [] => (f, [], [])
  | FifoOp.offer w :: ops =>
      if f.full then Fifo.run f ops
      else
        let r := Fifo.run { f with buf := f.buf ++ [w] } ops
        (r.1, w :: r.2.1, r.2.2)
  | FifoOp.take :: ops =>
      match f.buf with
      | [] => Fifo.run f ops
      | w :: rest =>
          let r := Fifo.run { f with buf := rest } ops
          (r.1, r.2.1, w :: r.2.2)

/-- The empty CDC FIFO of SERWBCore: depth 16 words. -/
def cdcFifo : Fifo :=
  { capacity := cdcDepth, buf := [] }

/-- Modelled from the spec: the Scrambler/Descrambler implementation
(liteiclink/serwb/scrambler.py) is not under src. Section 4.4 of the spec:
a self-synchronizing whitening step over the word stream, with a
configurable bypass (identity) mode. `whiten` is the one-word
scrambling step (new state and output word) used when enabled; with
enable false the word passes through unchanged and the state is kept. -/
def scramblerStep (enable : Bool) (whiten : Nat → Nat → Nat × Nat)
    (state word : Nat) : Nat × Nat :=
  if enable then whiten state word else (state, word)

/-- The construction parameters SERWBCore fixes for its scrambling stages:
core.py line 11 declares `with_scrambling=True` as the default, lines
28-29 build Scrambler(enable=with_scrambling) and
Descrambler(enable=with_scrambling). -/
structure CoreScrambling where
  with_scrambling : Bool
  scrambler_enable : Bool
  descrambler_enable : Bool
  deriving DecidableEq, Repr

/-- SERWBCore scrambling configuration as a function of the
with_scrambling argument, default true (core.py lines 11, 28-29). -/
def mkCoreScrambling (with_scrambling : Bool := true) : CoreScrambling where
  with_scrambling := with_scrambling
  scrambler_enable := with_scrambling
  descrambler_enable := with_scrambling

/-- A concrete stand-in 8b-to-10b lane code (9 significant bits, so in
range), used only to instantiate the abstract encoder in witnesses. -/
def laneCodeSample (l : Lane) : Nat :=
  l.d % 2 ^ 8 + (if l.k then 2 ^ 8 else 0)

/-- A concrete stand-in 10b-to-8b lane decode, used only to instantiate the
abstract decoder in witnesses. -/
def laneDecodeSample (g : Nat) : Lane :=
  ⟨g / 2 ^ 8 % 2 == 1, g % 2 ^ 8⟩

/-! Theorems. -/

/-- Componentwise characterisation of equality of lanes. -/
theorem lane_eq_iff (l m : Lane) : l = m ↔ l.k = m.k ∧ l.d = m.d := by
  cases l
  cases m
  simp [Lane.mk.injEq]

/-- A universal statement over the four lanes is the conjunction of its four
instances. -/
theorem forall_fin_four (P : Fin 4 → Prop) :
    (∀ i, P i) ↔ P 0 ∧ P 1 ∧ P 2 ∧ P 3 := by
  constructor
  · intro h
    exact ⟨h 0, h 1, h 2, h 3⟩
  · rintro ⟨h0, h1, h2, h3⟩ i
    fin_cases i <;> assumption

/-- C1: while phy.init.ready is deasserted, SERWBCore neither consumes the
scrambler output (its ready stays 0, tx_k/tx_d stay at the comb default 0)
nor validates the descrambler input, so no payload word is exchanged with
the serdes before the PHY reports ready. -/
theorem C1_no_payload_before_ready (x : CoreCombIn) (h : x.init_ready = false) :
    (coreComb x).scrambler_source_ready = false ∧
    (coreComb x).serdes_tx_k = 0 ∧
    (coreComb x).serdes_tx_d = 0 ∧
    (coreComb x).descrambler_sink_valid = false := by
  simp [coreComb, h]

theorem C1_no_payload_before_ready_witness :
    (coreComb ⟨false, true, 1, 3735928559, 2, 5⟩).scrambler_source_ready = false ∧
    (coreComb ⟨false, true, 1, 3735928559, 2, 5⟩).serdes_tx_k = 0 ∧
    (coreComb ⟨false, true, 1, 3735928559, 2, 5⟩).serdes_tx_d = 0 ∧
    (coreComb ⟨false, true, 1, 3735928559, 2, 5⟩).descrambler_sink_valid = false :=
  C1_no_payload_before_ready ⟨false, true, 1, 3735928559, 2, 5⟩ rfl

/-- C2: the stream connections made by SERWBCore are exactly the edges of
the specified transmit chain (etherbone, packetizer, tx FIFO, scrambler,
serdes) together with the edges of the specified receive chain (serdes,
descrambler, rx FIFO, depacketizer, etherbone); and both scrambling stages
sit on the phy (line-rate) side of the clock-domain bridge, matching the
FIFO halves facing them. -/
theorem C2_pipeline_order :
    serwbConnections.Perm (chainEdges specTxChain ++ chainEdges specRxChain) ∧
    stageDomain Stage.scrambler = StageDomain.phyCd ∧
    stageDomain Stage.descrambler = StageDomain.phyCd ∧
    txCdcDomains.2 = StageDomain.phyCd ∧
    rxCdcDomains.1 = StageDomain.phyCd := by
  refine ⟨by decide, rfl, rfl, rfl, rfl⟩

/-- Componentwise characterisation of the rx_comma detector (shared). -/
theorem rxComma_true_iff (dec : Fin 4 → Lane) :
    rxComma dec = true ↔
      dec 0 = ⟨true, 0xbc⟩ ∧ dec 1 = ⟨false, 0⟩ ∧
      dec 2 = ⟨false, 0⟩ ∧ dec 3 = ⟨false, 0⟩ := by
  simp only [rxComma, Bool.and_eq_true, beq_iff_eq, Bool.not_eq_true',
    lane_eq_iff]
  tauto

/-- C3: rx_comma is asserted exactly when the four decoded lanes are:
lane 0 the control symbol 0xBC (k=1) and lanes 1..3 the data symbol 0x00
(k=0); in particular a word carrying 0xBC as payload data (k=0) does not
assert it. -/
theorem C3_rx_comma_characterisation (dec : Fin 4 → Lane) :
    rxComma dec = true ↔
      dec 0 = ⟨true, 0xbc⟩ ∧ dec 1 = ⟨false, 0⟩ ∧
      dec 2 = ⟨false, 0⟩ ∧ dec 3 = ⟨false, 0⟩ :=
  rxComma_true_iff dec

/-- C4: with tx_comma asserted the encoder is driven, for every tx_k/tx_d,
with lane 0 = control 0xBC and lanes 1..3 = data 0x00, and that four-lane
word is exactly the pattern the rx_comma detector recognises after decode;
with tx_comma deasserted the encoder is driven directly from tx_k/tx_d
(bit i of tx_k and byte i of tx_d on lane i). -/
theorem C4_comma_roundtrip (tx_k tx_d : Nat) :
    (encoderLanes true tx_k tx_d 0 = ⟨true, 0xbc⟩ ∧
     encoderLanes true tx_k tx_d 1 = ⟨false, 0⟩ ∧
     encoderLanes true tx_k tx_d 2 = ⟨false, 0⟩ ∧
     encoderLanes true tx_k tx_d 3 = ⟨false, 0⟩) ∧
    (∀ dec : Fin 4 → Lane,
        rxComma dec = true ↔ ∀ i, dec i = encoderLanes true tx_k tx_d i) ∧
    (∀ i : Fin 4, encoderLanes false tx_k tx_d i =
        ⟨Nat.testBit tx_k i.val, tx_d / 2 ^ (8 * i.val) % 2 ^ 8⟩) := by
  refine ⟨⟨rfl, rfl, rfl, rfl⟩, ?_, fun i => rfl⟩
  intro dec
  rw [rxComma_true_iff dec, forall_fin_four]
  simp [encoderLanes]

/-- C8: the data-processing functions of KUSSerdes are identical in master
and slave mode; the mode parameter changes only the clocking resources
(master drives the reference clock onto the clk pads, slave receives it
and exposes refclk). -/
theorem C8_mode_symmetry :
    ((kusSerdes Mode.master).encLanes = (kusSerdes Mode.slave).encLanes ∧
     (kusSerdes Mode.master).txGroup = (kusSerdes Mode.slave).txGroup ∧
     (kusSerdes Mode.master).rxLane = (kusSerdes Mode.slave).rxLane ∧
     (kusSerdes Mode.master).rxDOf = (kusSerdes Mode.slave).rxDOf ∧
     (kusSerdes Mode.master).rxKOf = (kusSerdes Mode.slave).rxKOf ∧
     (kusSerdes Mode.master).rxCommaOf = (kusSerdes Mode.slave).rxCommaOf ∧
     (kusSerdes Mode.master).rxIdleOf = (kusSerdes Mode.slave).rxIdleOf ∧
     (kusSerdes Mode.master).rxBitslipOut = (kusSerdes Mode.slave).rxBitslipOut) ∧
    ((kusSerdes Mode.master).drivesClkPads = true ∧
     (kusSerdes Mode.slave).drivesClkPads = false ∧
     (kusSerdes Mode.master).hasRefclkInput = false ∧
     (kusSerdes Mode.slave).hasRefclkInput = true) :=
  ⟨⟨rfl, rfl, rfl, rfl, rfl, rfl, rfl, rfl⟩, rfl, rfl, rfl, rfl⟩

/-- Running the FIFO does not change its capacity. -/
theorem fifoRun_capacity (ops : List FifoOp) (f : Fifo) :
    (Fifo.run f ops).1.capacity = f.capacity := by
  induction ops generalizing f with
  | nil => rfl
  | cons op ops ih =>
    cases op with
    | offer w =>
      by_cases h : f.full
      · simp [Fifo.run, h, ih]
      · simp [Fifo.run, h, ih]
    | take =>
      cases hb : f.buf with
      | nil => simp [Fifo.run, hb, ih]
      | cons w rest => simp [Fifo.run, hb, ih]

/-- The FIFO buffer never exceeds its capacity: an offer against a full
buffer is refused. -/
theorem fifoRun_bounded (ops : List FifoOp) (f : Fifo)
    (h : f.buf.length ≤ f.capacity) :
    (Fifo.run f ops).1.buf.length ≤ f.capacity := by
  induction ops generalizing f with
  | nil => exact h
  | cons op ops ih =>
    cases op with
    | offer w =>
      by_cases hf : f.full
      · simp only [Fifo.run, hf, if_true]
        exact ih f h
      · simp only [Fifo.run, hf, if_false]
        have hlt : f.buf.length < f.capacity := by
          rcases Nat.lt_or_ge f.buf.length f.capacity with hl | hg
          · exact hl
          · exact absurd (by simpa [Fifo.full] using Nat.le_antisymm h hg) hf
        have := ih { f with buf := f.buf ++ [w] }
          (by simpa [List.length_append] using hlt)
        simpa using this
    | take =>
      cases hb : f.buf with
      | nil => simp only [Fifo.run, hb]; exact ih f h
      | cons w rest =>
        simp only [Fifo.run, hb]
        have := ih { f with buf := rest }
          (by
            show rest.length ≤ f.capacity
            have hlen : rest.length + 1 ≤ f.capacity := by
              simpa [hb] using h
            omega)
        simpa using this

/-- Conservation of words through the FIFO: the words handed to the
consumer followed by the words still buffered are exactly the initial
buffer followed by the words accepted from the producer — nothing is
dropped, duplicated or reordered. -/
theorem fifoRun_conservation (ops : List FifoOp) (f : Fifo) :
    (Fifo.run f ops).2.2 ++ (Fifo.run f ops).1.buf
      = f.buf ++ (Fifo.run f ops).2.1 := by
  induction ops generalizing f with
  | nil => simp [Fifo.run]
  | cons op ops ih =>
    cases op with
    | offer w =>
      by_cases hf : f.full
      · simp only [Fifo.run, hf, if_true]
        exact ih f
      · simp only [Fifo.run, hf, if_false]
        have := ih { f with buf := f.buf ++ [w] }
        simpa [List.append_assoc] using this
    | take =>
      cases hb : f.buf with
      | nil =>
        simp only [Fifo.run, hb]
        simpa [hb] using ih f
      | cons w rest =>
        simp only [Fifo.run, hb]
        have := ih { f with buf := rest }
        simpa [List.append_assoc] using this

/-- C5: the clock-domain bridge of SERWBCore is exactly two 32-bit, depth
16 FIFOs (tx: written in sys, read in phy.cd; rx: written in phy.cd, read
in sys); every SERWBCore connection either stays within one clock domain
or touches one of the two FIFOs; and the FIFO honours ready/valid
backpressure: starting empty, for any sequence of handshakes its buffer
never exceeds the depth, and the words handed to the consumer followed by
the words still buffered are exactly the words accepted from the producer,
in order. -/
theorem C5_clock_domain_bridge (ops : List FifoOp) :
    cdcWidth = 32 ∧
    cdcFifo.capacity = 16 ∧
    txCdcDomains = (StageDomain.sys, StageDomain.phyCd) ∧
    rxCdcDomains = (StageDomain.phyCd, StageDomain.sys) ∧
    (serwbConnections.all fun e =>
        stageDomain e.1 == stageDomain e.2
        || e.1 == Stage.txCdc || e.2 == Stage.txCdc
        || e.1 == Stage.rxCdc || e.2 == Stage.rxCdc) = true ∧
    (cdcFifo.run ops).1.buf.length ≤ cdcDepth ∧
    (cdcFifo.run ops).2.2 ++ (cdcFifo.run ops).1.buf = (cdcFifo.run ops).2.1 := by
  refine ⟨rfl, rfl, rfl, rfl, by decide, ?_, ?_⟩
  · exact fifoRun_bounded ops cdcFifo (by simp [cdcFifo])
  · simpa [cdcFifo] using fifoRun_conservation ops cdcFifo

/-- C6: the serdes combines four parallel 8b/10b lanes: for any lane code
producing 10-bit groups, the 40-bit tx group is exactly the concatenation
of the four per-lane encodings (lane i at bits [10i, 10i+10)), and on
receive the 40-bit group is split into four independent 10-bit lane
inputs whose decoded d and k fields are concatenated into the 32-bit rx_d
(byte i from lane i) and the 4-bit rx_k (bit i from lane i). -/
theorem C6_four_lane_codec (enc : Lane → Nat) (dec10 : Nat → Lane)
    (henc : ∀ l : Lane, enc l < 2 ^ 10) :
    (∀ (tx_comma : Bool) (tx_k tx_d : Nat) (i : Fin 4),
        rxLaneInput
            (txGearboxInput false (fun j => enc (encoderLanes tx_comma tx_k tx_d j))) i
          = enc (encoderLanes tx_comma tx_k tx_d i)) ∧
    (∀ (group : Nat) (i : Fin 4),
        rxDWord (fun j => dec10 (rxLaneInput group j)) / 2 ^ (8 * i.val) % 2 ^ 8
          = (dec10 (rxLaneInput group i)).d % 2 ^ 8) ∧
    (∀ (group : Nat) (i : Fin 4),
        Nat.testBit (rxKWord (fun j => dec10 (rxLaneInput group j))) i.val
          = (dec10 (rxLaneInput group i)).k) := by
  have v0 : ((0 : Fin 4) : Nat) = 0 := rfl
  have v1 : ((1 : Fin 4) : Nat) = 1 := rfl
  have v2 : ((2 : Fin 4) : Nat) = 2 := rfl
  have v3 : ((3 : Fin 4) : Nat) = 3 := rfl
  refine ⟨?_, ?_, ?_⟩
  · intro c k d
    have h0 := henc (encoderLanes c k d 0)
    have h1 := henc (encoderLanes c k d 1)
    have h2 := henc (encoderLanes c k d 2)
    have h3 := henc (encoderLanes c k d 3)
    rw [forall_fin_four]
    refine ⟨?_, ?_, ?_, ?_⟩ <;>
      · simp only [txGearboxInput, rxLaneInput, Bool.false_eq_true, if_false,
          v0, v1, v2, v3]
        omega
  · intro group
    rw [forall_fin_four]
    refine ⟨?_, ?_, ?_, ?_⟩ <;>
      · simp only [rxDWord, v0, v1, v2, v3]
        omega
  · intro group
    rw [forall_fin_four]
    refine ⟨?_, ?_, ?_, ?_⟩ <;>
      · simp only [rxKWord, v0, v1, v2, v3]
        cases (dec10 (rxLaneInput group 0)).k <;>
          cases (dec10 (rxLaneInput group 1)).k <;>
            cases (dec10 (rxLaneInput group 2)).k <;>
              cases (dec10 (rxLaneInput group 3)).k <;>
                decide

theorem C6_four_lane_codec_witness :
    rxLaneInput
        (txGearboxInput false
          (fun j => laneCodeSample (encoderLanes false 5 67305985 j))) 2
      = laneCodeSample (encoderLanes false 5 67305985 2) :=
  (C6_four_lane_codec laneCodeSample laneDecodeSample
    (by
      intro l
      simp only [laneCodeSample]
      cases l.k <;> simp <;> omega)).1 false 5 67305985 2

/-- C7: the bitslip control input of the serdes is a 6-bit signal and the
rotation cases of BitSlip(40) are exactly the offsets in [0, 40): a value
in that range selects the corresponding bit rotation of the receive
stream, and a representable value outside it applies no rotation at all
(the sync Case has no matching branch, so the output register just keeps
its previous value, whatever the stream holds). -/
theorem C7_bitslip_offset_range (value : Nat)
    (_hv : value < 2 ^ rxBitslipValueWidth) :
    (value ∈ bitslipCases rxBitslipWidth ↔ value < 40) ∧
    (∀ r prev : Nat, value ∈ bitslipCases rxBitslipWidth →
        bitslipOut rxBitslipWidth value r prev = r / 2 ^ value % 2 ^ 40) ∧
    (value ∉ bitslipCases rxBitslipWidth →
        ∀ r prev : Nat, bitslipOut rxBitslipWidth value r prev = prev) := by
  refine ⟨?_, ?_, ?_⟩
  · simp [bitslipCases, rxBitslipWidth]
  · intro r prev h
    simp only [bitslipOut]
    rw [if_pos h]
    rfl
  · intro h r prev
    simp only [bitslipOut]
    rw [if_neg h]

theorem C7_bitslip_offset_range_witness :
    5 < 2 ^ rxBitslipValueWidth ∧
    (5 ∈ bitslipCases rxBitslipWidth ↔ 5 < 40) :=
  ⟨by decide, (C7_bitslip_offset_range 5 (by decide)).1⟩

/-- C9: SERWBCore takes with_scrambling (default true) and hands it to both
scrambling stages as their enable; with enable false the scrambling step is
the identity on the word stream and leaves the whitening state untouched,
for any whitening function. -/
theorem C9_scrambling_bypass (whiten : Nat → Nat → Nat × Nat) (w : Bool) :
    (mkCoreScrambling w).scrambler_enable = w ∧
    (mkCoreScrambling w).descrambler_enable = w ∧
    (mkCoreScrambling).with_scrambling = true ∧
    (w = false → ∀ state word : Nat,
        scramblerStep w whiten state word = (state, word)) := by
  refine ⟨rfl, rfl, rfl, ?_⟩
  intro h state word
  simp [scramblerStep, h]

theorem C9_scrambling_bypass_witness :
    (mkCoreScrambling false).scrambler_enable = false ∧
    (mkCoreScrambling false).descrambler_enable = false ∧
    (mkCoreScrambling).with_scrambling = true ∧
    scramblerStep false (fun s x => (s + 1, x + 1)) 7 42 = (7, 42) := by
  have h := C9_scrambling_bypass (fun s x => (s + 1, x + 1)) false
  exact ⟨h.1, h.2.1, h.2.2.1, h.2.2.2 rfl 7 42⟩

/-- C10: with tx_idle asserted the 40-bit group handed to the tx gearbox is
forced to all zeros for any encoder output; rx_idle is asserted exactly
when the post-bitslip receive group is all zeros; and on an error-free
line (the bitslip shift register holds the all-zero groups the idle
endpoint transmits) every applied rotation of BitSlip(40) yields the
all-zero output group, so an asserted tx_idle produces at the peer exactly
the condition its rx_idle detects. -/
theorem C10_idle_roundtrip :
    (∀ encOut : Fin 4 → Nat, txGearboxInput true encOut = 0) ∧
    (∀ group : Nat, rxIdle group = true ↔ group = 0) ∧
    (∀ value prev : Nat, value ∈ bitslipCases rxBitslipWidth →
        bitslipOut rxBitslipWidth value 0 prev = 0) ∧
    (∀ (encOut : Fin 4 → Nat) (value prev : Nat),
        value ∈ bitslipCases rxBitslipWidth →
        rxIdle (bitslipOut rxBitslipWidth value
          (txGearboxInput true encOut) prev) = true) := by
  refine ⟨fun _ => rfl, fun g => ?_, fun value prev h => ?_, fun _ value prev h => ?_⟩
  · simp [rxIdle]
  · simp only [bitslipOut]
    rw [if_pos h]
    simp
  · simp only [txGearboxInput, bitslipOut, if_true]
    rw [if_pos h]
    simp [rxIdle]

theorem C10_idle_roundtrip_witness :
    txGearboxInput true (fun _ => 3) = 0 ∧
    bitslipOut rxBitslipWidth 5 0 7 = 0 ∧
    rxIdle (bitslipOut rxBitslipWidth 5 (txGearboxInput true (fun _ => 3)) 7)
      = true :=
  ⟨C10_idle_roundtrip.1 (fun _ => 3),
   C10_idle_roundtrip.2.2.1 5 7 (by decide),
   C10_idle_roundtrip.2.2.2 (fun _ => 3) 5 7 (by decide)⟩

end SerWB
